import Mathlib

/-!
Verification development for the ElasticDash JS SDK core.

The repository's visible source (`packages/client`, `packages/tracing`,
`packages/core`) contains the top-level client, the tracer-provider slot and
the OpenTelemetry attribute mapping; those are embedded directly from the
source files below.  The asynchronous Dispatch Queue backing score submission
and the read-through Resource Cache backing prompt resolution are implemented
in packages that are not part of the visible source (only their callers are,
e.g. `ElasticDashClient.flush` delegating to the score manager), so they are
modelled from the specification, as marked on each definition.
-/

namespace ElasticDash

/-! ## Dispatch Queue (modelled from the spec) -/

/-- Modelled from the spec: lifecycle states of the `QueueState`
(`Idle → Accumulating → Flushing → Idle/ShuttingDown`).  The dispatch-queue
implementation is not under the visible source tree. -/
inductive QMode
  | Idle
  | Accumulating
  | Flushing
  | ShuttingDown
  deriving DecidableEq, Repr

/-- Modelled from the spec: the error signalled by `enqueue` after shutdown
and the aggregated delivery failure.  The dispatch-queue implementation is
not under the visible source tree. -/
inductive DispatchError
  | QueueClosed
  | DeliveryFailed
  deriving DecidableEq, Repr

/-- Modelled from the spec: the Dispatch Queue state — a pending event
buffer owned exclusively by the queue, the lifecycle mode, the configured
maximum batch size, and the recorded outcome of a completed `shutdown`
(used to make a second `shutdown` call resolve with the first call's
outcome).  The dispatch-queue implementation is not under the visible
source tree. -/
structure Queue (α : Type) where
  buffer : List α
  mode : QMode
  maxBatchSize : Nat
  shutdownOutcome : Option (List (List α) × List (List α))
  deriving DecidableEq, Repr

/-- Modelled from the spec: result of an `enqueue` call.  `flushDue` records
that the buffer reached `maxBatchSize` so the dispatch loop owes an
immediate flush; `sends` lists the transport calls performed by the
`enqueue` call itself (always none: `enqueue` never blocks the caller on
network I/O — the threshold-triggered flush runs asynchronously in the
dispatch loop). -/
structure EnqueueOut (α : Type) where
  result : Except DispatchError (Queue α)
  flushDue : Bool
  sends : List (List α)
  deriving Repr

/-- Modelled from the spec: `enqueue(event)` appends the event to the pending
buffer; it fails only in `ShuttingDown` state, signalling `QueueClosed`, and
performs no network I/O itself. -/
def enqueue {α : Type} (q : Queue α) (e : α) : EnqueueOut α :=
  match q.mode with
  | .ShuttingDown => ⟨.error .QueueClosed, false, []⟩
  | _ =>
    let buf := q.buffer ++ [e]
    ⟨.ok { q with
        buffer := buf
        mode := if q.mode = .Idle then .Accumulating else q.mode },
      decide (q.maxBatchSize ≤ buf.length), []⟩

/-- The initial Dispatch Queue: empty buffer, `Idle`, with the configured
maximum batch size. -/
def emptyQueue (α : Type) (max : Nat) : Queue α :=
  ⟨[], .Idle, max, none⟩

/-- Sequential composition of `enqueue` calls, stopping at the first error. -/
def enqueueAll {α : Type} (q : Queue α) : List α → Except DispatchError (Queue α)
  | [] => .ok q
  | e :: es =>
    match (enqueue q e).result with
    | .error err => .error err
    | .ok q' => enqueueAll q' es

/-- Modelled from the spec: assembly of the pending buffer into Batches in
enqueue (FIFO) order, each capped at `max` events.  Fuel-indexed recursion;
the fuel is instantiated with the buffer length. -/
def toBatchesAux {α : Type} (max : Nat) : Nat → List α → List (List α)
  | _, [] => []
  | 0, l => [l]
  | fuel + 1, l => l.take max :: toBatchesAux max fuel (l.drop max)

/-- Modelled from the spec: drain a pending buffer into Batches of at most
`max` events, in enqueue order. -/
def toBatches {α : Type} (max : Nat) (l : List α) : List (List α) :=
  toBatchesAux max l.length l

/-- Modelled from the spec: outcome of a `flush` or `shutdown` call — the
batches delivered, the batches reported failed, and the queue state after
the call.  A batch's delivery (including its internal retries) is summarised
by the transport predicate handed to `flush`. -/
structure FlushOut (α : Type) where
  sent : List (List α)
  failed : List (List α)
  queue : Queue α
  deriving Repr

/-- Send each batch in order via the transport, partitioning into delivered
and failed batches while preserving assembly order. -/
def sendBatches {α : Type} (tr : List α → Bool) :
    List (List α) → List (List α) × List (List α)
  | [] => ([], [])
  | b :: bs =>
    let rest := sendBatches tr bs
    if tr b then (b :: rest.1, rest.2) else (rest.1, b :: rest.2)

/-- Modelled from the spec: `flush()` drains the current pending buffer into
one or more Batches (in enqueue order) and attempts each via the Transport,
returning once every currently-buffered event has been attempted.  A batch
the transport rejects (after its retry budget) is reported failed and
discarded, never requeued. -/
def flush {α : Type} (tr : List α → Bool) (q : Queue α) : FlushOut α :=
  let batches := toBatches q.maxBatchSize q.buffer
  let (sent, failed) := sendBatches tr batches
  ⟨sent, failed, { q with buffer := [], mode := .Idle }⟩

/-- Modelled from the spec: result of a `shutdown` call — the aggregated
(sent, failed) outcome reported to the caller, the queue state afterwards,
and the batches this particular call attempted via the Transport. -/
structure ShutdownOut (α : Type) where
  outcome : List (List α) × List (List α)
  queue : Queue α
  attempted : List (List α)
  deriving Repr

/-- Modelled from the spec: `shutdown()` is `flush()` followed by the
transition to `ShuttingDown`; a queue already shut down attempts nothing
again and resolves with the recorded outcome of the first call. -/
def shutdown {α : Type} (tr : List α → Bool) (q : Queue α) : ShutdownOut α :=
  match q.shutdownOutcome with
  | some o => ⟨o, q, []⟩
  | none =>
    let f := flush tr q
    ⟨(f.sent, f.failed),
      { f.queue with
        mode := .ShuttingDown
        shutdownOutcome := some (f.sent, f.failed) },
      toBatches q.maxBatchSize q.buffer⟩

/-! ## Retry with exponential backoff (modelled from the spec) -/

/-- Modelled from the spec: the Transport capability's per-attempt result —
acknowledged, or an error classified `Transient` (retryable) or `Permanent`
(non-retryable). -/
inductive SendResult
  | Ack
  | Transient
  | Permanent
  deriving DecidableEq, Repr

/-- Modelled from the spec: the outcome of delivering one batch — whether it
was delivered, how many transport attempts were made, and the exponential
backoff delays observed between consecutive attempts. -/
structure DeliveryOutcome where
  delivered : Bool
  attempts : Nat
  delays : List Nat
  deriving DecidableEq, Repr

/-- Attempt loop: `attempt` is the zero-based attempt index, `fuel` the number
of retries still allowed after the current attempt.  A transient failure with
fuel left retries after a backoff delay of `base * 2 ^ attempt`; a permanent
failure stops immediately. -/
def deliverAux (tr : Nat → SendResult) (base : Nat) : Nat → Nat → DeliveryOutcome
  | attempt, fuel =>
    match tr attempt with
    | .Ack => ⟨true, attempt + 1, []⟩
    | .Permanent => ⟨false, attempt + 1, []⟩
    | .Transient =>
      match fuel with
      | 0 => ⟨false, attempt + 1, []⟩
      | fuel + 1 =>
        let rest := deliverAux tr base (attempt + 1) fuel
        ⟨rest.delivered, rest.attempts, base * 2 ^ attempt :: rest.delays⟩

/-- Modelled from the spec: deliver one batch via the Transport, retrying
transient failures with exponential backoff up to `maxRetries` total
attempts, and never retrying a permanent failure.  `tr n` is the transport's
response to the `n`-th (zero-based) attempt. -/
def deliver (tr : Nat → SendResult) (maxRetries base : Nat) : DeliveryOutcome :=
  deliverAux tr base 0 (maxRetries - 1)

/-- The spec's retry scenario transport: a transient error on the first two
attempts, then an acknowledgement. -/
def scenarioTransport : Nat → SendResult :=
  fun n => if n < 2 then .Transient else .Ack

/-! ## Read-through Resource Cache (modelled from the spec) -/

/-- Modelled from the spec: the Fetcher capability's error, distinguishing
`NotFound` from the transient `Unavailable`.  The cache implementation is
not under the visible source tree. -/
inductive FetchError
  | NotFound
  | Unavailable
  deriving DecidableEq, Repr

/-- Modelled from the spec: errors surfaced by `resolve`. -/
inductive ResolveError
  | ResourceNotFound
  | FetchUnavailable
  deriving DecidableEq, Repr

/-- Modelled from the spec: a CacheEntry maps a key to the resolved value,
its fetch timestamp and its time-to-live; the TTL window is
`[fetchTs, fetchTs + ttl)`. -/
structure CacheEntry (V : Type) where
  value : V
  fetchTs : Nat
  ttl : Nat
  deriving DecidableEq, Repr

/-- A CacheEntry is fresh at time `now` when `now` lies in its TTL window. -/
def CacheEntry.freshAt {V : Type} (e : CacheEntry V) (now : Nat) : Bool :=
  now < e.fetchTs + e.ttl

/-- Modelled from the spec: the process-wide cache mapping from key to
CacheEntry, with replace-on-refresh as the only eviction. -/
def Cache (K V : Type) : Type := List (K × CacheEntry V)

/-- Look up the entry for a key. -/
def Cache.find {K V : Type} [DecidableEq K] (c : Cache K V) (k : K) :
    Option (CacheEntry V) :=
  match c with
  | [] => none
  | (k', e) :: rest => if k' = k then some e else Cache.find rest k

/-- Replace-on-refresh: write the entry for `k`, atomically replacing any
previous entry for `k`. -/
def Cache.write {K V : Type} [DecidableEq K] (c : Cache K V) (k : K)
    (e : CacheEntry V) : Cache K V :=
  match c with
  | [] => [(k, e)]
  | (k', e') :: rest =>
    if k' = k then (k, e) :: rest else (k', e') :: Cache.write rest k e

/-- Modelled from the spec: `invalidate(key)` removes the CacheEntry for
`key`, forcing the next `resolve` to perform a blocking fetch. -/
def Cache.invalidate {K V : Type} [DecidableEq K] (c : Cache K V) (k : K) :
    Cache K V :=
  match c with
  | [] => []
  | (k', e') :: rest =>
    if k' = k then Cache.invalidate rest k else (k', e') :: Cache.invalidate rest k

/-- Modelled from the spec: result of a `resolve` call — the value or error
returned to the caller, the cache after the call (including the effect of a
stale-triggered refresh once it completes), and the number of Fetcher
invocations the call caused. -/
structure ResolveOut (K V : Type) where
  result : Except ResolveError V
  cache : Cache K V
  fetchCalls : Nat

/-- Modelled from the spec: `resolve(key, optional ttl and fallback)`.
A fresh entry is returned immediately with no Fetcher access.  A missing
entry causes a blocking fetch that populates the cache; a `NotFound` report
yields `ResourceNotFound` unless a fallback was supplied, and a transient
fetch failure with no cached value yields `FetchUnavailable`.  A stale entry
is returned immediately and a refresh is triggered; the cache component
shows the state once that refresh completes: success replaces the entry,
failure retains the stale entry with its TTL window extended by the
`graceMs` grace period. -/
def resolve {K V : Type} [DecidableEq K] (fetch : K → Except FetchError V)
    (ttl graceMs now : Nat) (fallback : Option V) (c : Cache K V) (k : K) :
    ResolveOut K V :=
  match c.find k with
  | some e =>
    if e.freshAt now then
      ⟨.ok e.value, c, 0⟩
    else
      match fetch k with
      | .ok v => ⟨.ok e.value, c.write k ⟨v, now, ttl⟩, 1⟩
      | .error _ =>
        ⟨.ok e.value, c.write k ⟨e.value, e.fetchTs, e.ttl + graceMs⟩, 1⟩
  | none =>
    match fetch k with
    | .ok v => ⟨.ok v, c.write k ⟨v, now, ttl⟩, 1⟩
    | .error .NotFound =>
      match fallback with
      | some f => ⟨.ok f, c, 1⟩
      | none => ⟨.error .ResourceNotFound, c, 1⟩
    | .error .Unavailable => ⟨.error .FetchUnavailable, c, 1⟩

/-! ## Fetch-coalescing under concurrent resolve (modelled from the spec) -/

/-- Modelled from the spec: cache state instrumented for the coalescing
discipline — the entry map, the set of keys with an in-flight fetch (the
shared pending-operation handles), and a counter of Fetcher invocations. -/
structure CoCache (K V : Type) where
  entries : Cache K V
  inflight : List K
  fetchCount : Nat

/-- Modelled from the spec: the cache-side step a `resolve` call performs
when it is issued at time `now`.  A fresh entry answers from the cache; a
missing or stale entry joins an existing in-flight fetch for the key when
one is present, and otherwise installs the in-flight handle and invokes the
Fetcher (counted once). -/
def resolveStart {K V : Type} [DecidableEq K] (now : Nat) (s : CoCache K V)
    (k : K) : CoCache K V :=
  match s.entries.find k with
  | some e =>
    if e.freshAt now then s
    else if k ∈ s.inflight then s
    else { s with inflight := k :: s.inflight, fetchCount := s.fetchCount + 1 }
  | none =>
    if k ∈ s.inflight then s
    else { s with inflight := k :: s.inflight, fetchCount := s.fetchCount + 1 }

/-- Modelled from the spec: completion of the in-flight fetch for `k` — the
handle is cleared and, on success, the fetched value is written. -/
def resolveComplete {K V : Type} [DecidableEq K] (now ttl : Nat)
    (s : CoCache K V) (k : K) (res : Except FetchError V) : CoCache K V :=
  { s with
    inflight := s.inflight.erase k
    entries :=
      match res with
      | .ok v => s.entries.write k ⟨v, now, ttl⟩
      | .error _ => s.entries }

/-- Iterate `resolveStart` for `n` concurrent callers of the same key, all
issued before the in-flight fetch completes. -/
def resolveStartN {K V : Type} [DecidableEq K] (now : Nat) (s : CoCache K V)
    (k : K) : Nat → CoCache K V
  | 0 => s
  | n + 1 => resolveStartN now (resolveStart now s k) k n

/-! ## Top-level client (embedded from
`packages/client/src/ElasticDashClient.ts`) -/

/-- The surface of the score manager the client delegates to.  The score
manager's implementation lives outside the visible source tree; its
`flush` and `shutdown` are modelled as state transformers over an abstract
manager state `σ` producing a result `ρ`. -/
structure ScoreManager (σ ρ : Type) where
  flush : σ → ρ × σ
  shutdown : σ → ρ × σ

/-- Embedded from `ElasticDashClient.ts`: the client owns a score manager
(`this.score`); the other managers and the API client are irrelevant to the
claims and omitted. -/
structure ElasticDashClient (σ ρ : Type) where
  score : ScoreManager σ ρ

/-- Embedded from `ElasticDashClient.ts` line 345: `public async flush()
returns this.score.flush()`. -/
def ElasticDashClient.flush {σ ρ : Type} (c : ElasticDashClient σ ρ) (s : σ) :
    ρ × σ :=
  c.score.flush s

/-- Embedded from `ElasticDashClient.ts` line 363: `public async shutdown()
returns this.score.shutdown()`. -/
def ElasticDashClient.shutdown {σ ρ : Type} (c : ElasticDashClient σ ρ)
    (s : σ) : ρ × σ :=
  c.score.shutdown s

/-- The score manager instantiated with the Dispatch Queue pipeline: its
`flush` and `shutdown` are the queue operations, reporting the sent and
failed batches. -/
def scoreManagerOfQueue {α : Type} (tr : List α → Bool) :
    ScoreManager (Queue α) (List (List α) × List (List α)) :=
  { flush := fun q =>
      let f := ElasticDash.flush tr q
      ((f.sent, f.failed), f.queue)
    shutdown := fun q =>
      let r := ElasticDash.shutdown tr q
      (r.outcome, r.queue) }

/-! ## Tracer provider slot (embedded from
`packages/tracing/src/tracerProvider.ts`) -/

/-- Embedded from `tracerProvider.ts`: the process-wide state stored under
the global symbol, holding the isolated tracer provider or `null`
(`isolatedTracerProvider : TracerProvider | null`). -/
structure ElasticDashGlobalState (P : Type) where
  isolatedTracerProvider : Option P

/-- Embedded from `tracerProvider.ts` (`createState`): the initial state has
no isolated provider. -/
def createState (P : Type) : ElasticDashGlobalState P :=
  { isolatedTracerProvider := none }

/-- Embedded from `tracerProvider.ts` line 102: store the given provider
(or `null`, i.e. `none`) in the global state's slot. -/
def setElasticDashTracerProvider {P : Type} (s : ElasticDashGlobalState P)
    (provider : Option P) : ElasticDashGlobalState P :=
  { s with isolatedTracerProvider := provider }

/-- Embedded from `tracerProvider.ts` line 123: return the isolated provider
when one is set (a provider object is truthy, `null` is falsy), otherwise
fall back to the global OpenTelemetry `trace.getTracerProvider()`, passed
here as `globalProvider`. -/
def getElasticDashTracerProvider {P : Type} (globalProvider : P)
    (s : ElasticDashGlobalState P) : P :=
  match s.isolatedTracerProvider with
  | some p => p
  | none => globalProvider

/-! ## OpenTelemetry attribute mapping (embedded from
`packages/tracing/src/attributes.ts`) -/

/-- A JavaScript value as it can appear in the attribute inputs; `jsNull`
stands for JavaScript `null`. -/
inductive JsValue
  | jsNull
  | str (s : String)
  | num (n : Int)
  | bool (b : Bool)
  | arr (xs : List JsValue)
  | obj (fields : List (String × JsValue))
  deriving Repr

mutual

/-- Model of the host `JSON.stringify` builtin (an external collaborator of
`attributes.ts`, not repository code): a total serialization of `JsValue`
into a string. -/
def stringify : JsValue → String
  | .jsNull => "null"
  | .str s => "\"" ++ s ++ "\""
  | .num n => toString n
  | .bool b => if b then "true" else "false"
  | .arr xs => "[" ++ stringifyArr xs ++ "]"
  | .obj fs => "(" ++ stringifyObj fs ++ ")"

/-- Serialize a list of array elements. -/
def stringifyArr : List JsValue → String
  | [] => ""
  | x :: xs => stringify x ++ "," ++ stringifyArr xs

/-- Serialize a list of object fields. -/
def stringifyObj : List (String × JsValue) → String
  | [] => ""
  | f :: fs => f.1 ++ ":" ++ stringify f.2 ++ "," ++ stringifyObj fs

end

/-- Embedded from `attributes.ts` line 125 (`_serialize`): a string is
returned as is; `null`/`undefined` yield `undefined` (`none`); any other
value is JSON-stringified. -/
def serializeAttr : Option JsValue → Option String
  | none => none
  | some .jsNull => none
  | some (.str s) => some s
  | some v => some (stringify v)

/-- The OpenTelemetry span-attribute keys used by `attributes.ts`.  The
string constants live in `ElasticDashOtelSpanAttributes` of
`@elasticdash/core`, outside the visible source tree; they are modelled as
an enumerated type, with the metadata keys carrying the flattened user key
(`none` is the bare metadata key used for non-object metadata). -/
inductive AttrKey
  | traceName
  | traceUserId
  | traceSessionId
  | version
  | release
  | traceInput
  | traceOutput
  | traceTags
  | environment
  | tracePublic
  | traceMetadata (field : Option String)
  | observationType
  | observationLevel
  | observationStatusMessage
  | observationInput
  | observationOutput
  | observationModel
  | observationUsageDetails
  | observationCostDetails
  | observationCompletionStartTime
  | observationModelParameters
  | observationPromptName
  | observationPromptVersion
  | observationMetadata (field : Option String)
  deriving DecidableEq, Repr

/-- An OpenTelemetry attribute value as produced by `attributes.ts`. -/
inductive AttrValue
  | str (s : String)
  | strList (xs : List String)
  | bool (b : Bool)
  | num (n : Int)
  deriving DecidableEq, Repr

/-- Serialization applied to a metadata field value: a string is kept as is,
anything else goes through `_serialize`. -/
def metaFieldSerialize : JsValue → Option String
  | .str s => some s
  | v => serializeAttr (some v)

/-- The truthiness guard of `attributes.ts` (`if (serialized) { ... }`): a
metadata entry is produced only when the serialization yielded a truthy
(present and non-empty) string. -/
def entryIfTruthy (k : AttrKey) (s : Option String) :
    Option (AttrKey × Option AttrValue) :=
  match s with
  | some sv => if sv = "" then none else some (k, some (.str sv))
  | none => none

/-- Embedded from `attributes.ts` line 147 (`_flattenAndSerializeMetadata`):
`null`/`undefined` metadata yields nothing; a non-object (or array) value is
serialized under the bare metadata key when the serialization is truthy;
an object contributes one entry per field whose serialization is truthy,
under the metadata key extended with the field name.  `mk` builds the
trace- or observation-prefixed key. -/
def flattenAndSerializeMetadata (mk : Option String → AttrKey) :
    Option JsValue → List (AttrKey × Option AttrValue)
  | none => []
  | some .jsNull => []
  | some (.obj fields) =>
    fields.filterMap fun kv =>
      entryIfTruthy (mk (some kv.1)) (metaFieldSerialize kv.2)
  | some v => (entryIfTruthy (mk none) (serializeAttr (some v))).toList

/-- Embedded from `packages/tracing/src/types.ts` (interface
`ElasticDashTraceAttributes`): the user-supplied trace attributes; every
field is optional (`none` models an absent/`undefined` field; `public` is
destructured as `isPublic` in the source). -/
structure ElasticDashTraceAttributes where
  name : Option String := none
  userId : Option String := none
  sessionId : Option String := none
  version : Option String := none
  release : Option String := none
  input : Option JsValue := none
  output : Option JsValue := none
  metadata : Option JsValue := none
  tags : Option (List String) := none
  environment : Option String := none
  isPublic : Option Bool := none

/-- Embedded from `attributes.ts` line 36 (`createTraceAttributes`): build
the attribute object (a key-value entry list, metadata entries spread
last), then keep only the entries whose value is not `null`/`undefined`
(`filter (v != null)`). -/
def createTraceAttributes (a : ElasticDashTraceAttributes) :
    List (AttrKey × Option AttrValue) :=
  let base : List (AttrKey × Option AttrValue) :=
    [(.traceName, a.name.map .str),
     (.traceUserId, a.userId.map .str),
     (.traceSessionId, a.sessionId.map .str),
     (.version, a.version.map .str),
     (.release, a.release.map .str),
     (.traceInput, (serializeAttr a.input).map .str),
     (.traceOutput, (serializeAttr a.output).map .str),
     (.traceTags, a.tags.map .strList),
     (.environment, a.environment.map .str),
     (.tracePublic, a.isPublic.map .bool)]
  (base ++ flattenAndSerializeMetadata .traceMetadata a.metadata).filter
    fun kv => kv.2.isSome

/-- Embedded from `packages/tracing/src/types.ts`: the prompt reference
carried in observation attributes (name, version, and the fallback flag). -/
structure ElasticDashPromptRef where
  name : String
  version : Int
  isFallback : Bool

/-- Embedded from `packages/tracing/src/types.ts` (interface
`ElasticDashObservationAttributes`): the user-supplied observation
attributes; every field is optional. -/
structure ElasticDashObservationAttributes where
  metadata : Option JsValue := none
  input : Option JsValue := none
  output : Option JsValue := none
  level : Option String := none
  statusMessage : Option String := none
  version : Option String := none
  completionStartTime : Option JsValue := none
  model : Option String := none
  modelParameters : Option JsValue := none
  usageDetails : Option JsValue := none
  costDetails : Option JsValue := none
  prompt : Option ElasticDashPromptRef := none

/-- Embedded from `attributes.ts` line 68 (`createObservationAttributes`):
build the attribute object — including the prompt name/version entries only
when a prompt is supplied and is not a fallback (`prompt && !prompt.isFallback`),
with metadata entries spread last — then keep only the entries whose value
is not `null`/`undefined`. -/
def createObservationAttributes (tp : String)
    (a : ElasticDashObservationAttributes) :
    List (AttrKey × Option AttrValue) :=
  let base : List (AttrKey × Option AttrValue) :=
    [(.observationType, some (.str tp)),
     (.observationLevel, a.level.map .str),
     (.observationStatusMessage, a.statusMessage.map .str),
     (.version, a.version.map .str),
     (.observationInput, (serializeAttr a.input).map .str),
     (.observationOutput, (serializeAttr a.output).map .str),
     (.observationModel, a.model.map .str),
     (.observationUsageDetails, (serializeAttr a.usageDetails).map .str),
     (.observationCostDetails, (serializeAttr a.costDetails).map .str),
     (.observationCompletionStartTime,
       (serializeAttr a.completionStartTime).map .str),
     (.observationModelParameters,
       (serializeAttr a.modelParameters).map .str)]
  let promptEntries : List (AttrKey × Option AttrValue) :=
    match a.prompt with
    | some p =>
      if p.isFallback then []
      else
        [(.observationPromptName, some (.str p.name)),
         (.observationPromptVersion, some (.num p.version))]
    | none => []
  (base ++ promptEntries
   ++ flattenAndSerializeMetadata .observationMetadata a.metadata).filter
    fun kv => kv.2.isSome

/-! ## Helper lemmas -/

/-- A successful `enqueue` on a queue that is not shutting down appends the
event and keeps the mode out of `ShuttingDown`. -/
theorem enqueueAll_ok {α : Type} (evs : List α) (q : Queue α)
    (h : q.mode ≠ QMode.ShuttingDown) :
    ∃ q', enqueueAll q evs = Except.ok q' ∧ q'.buffer = q.buffer ++ evs ∧
      q'.maxBatchSize = q.maxBatchSize ∧ q'.mode ≠ QMode.ShuttingDown := by
  induction evs generalizing q with
  | nil => exact ⟨q, rfl, by simp [enqueueAll], rfl, h⟩
  | cons e es ih =>
    rcases q with ⟨buf, mode, mx, so⟩
    cases mode with
    | ShuttingDown => exact absurd rfl h
    | Idle =>
      obtain ⟨q', h1, h2, h3, h4⟩ :=
        ih ⟨buf ++ [e], QMode.Accumulating, mx, so⟩ (by simp)
      exact ⟨q', by simpa [enqueueAll, enqueue] using h1, by simp [h2], h3, h4⟩
    | Accumulating =>
      obtain ⟨q', h1, h2, h3, h4⟩ :=
        ih ⟨buf ++ [e], QMode.Accumulating, mx, so⟩ (by simp)
      exact ⟨q', by simpa [enqueueAll, enqueue] using h1, by simp [h2], h3, h4⟩
    | Flushing =>
      obtain ⟨q', h1, h2, h3, h4⟩ :=
        ih ⟨buf ++ [e], QMode.Flushing, mx, so⟩ (by simp)
      exact ⟨q', by simpa [enqueueAll, enqueue] using h1, by simp [h2], h3, h4⟩

/-- Batching the empty buffer yields no batch, whatever the fuel. -/
theorem toBatchesAux_nil {α : Type} (max fuel : Nat) :
    toBatchesAux max fuel ([] : List α) = [] := by
  cases fuel <;> rfl

/-- Batch assembly loses, duplicates and reorders nothing: concatenating
the assembled batches gives back the buffer. -/
theorem toBatchesAux_flatten {α : Type} (max : Nat) :
    ∀ (fuel : Nat) (l : List α), (toBatchesAux max fuel l).flatten = l := by
  intro fuel
  induction fuel with
  | zero => intro l; cases l <;> simp [toBatchesAux]
  | succ n ih =>
    intro l
    cases l with
    | nil => simp [toBatchesAux]
    | cons x xs =>
      simp only [toBatchesAux, List.flatten_cons, ih]
      exact List.take_append_drop _ _

/-- A nonempty buffer within the batch-size cap forms a single batch. -/
theorem toBatches_single {α : Type} (max : Nat) (l : List α)
    (hne : l ≠ []) (hlen : l.length ≤ max) : toBatches max l = [l] := by
  cases l with
  | nil => exact absurd rfl hne
  | cons x xs =>
    simp only [toBatches, List.length_cons, toBatchesAux]
    rw [List.take_of_length_le hlen, List.drop_eq_nil_of_le hlen, toBatchesAux_nil]

/-- With a transport that accepts everything, every batch is sent and none
fails. -/
theorem sendBatches_true {α : Type} (bs : List (List α)) :
    sendBatches (fun _ => true) bs = (bs, []) := by
  induction bs with
  | nil => rfl
  | cons b bs ih => simp [sendBatches, ih]

/-- Writing a key makes it found with the written entry. -/
theorem Cache.find_write_self {K V : Type} [DecidableEq K] (c : Cache K V)
    (k : K) (e : CacheEntry V) : (c.write k e).find k = some e := by
  induction c with
  | nil => simp [Cache.write, Cache.find]
  | cons kv rest ih =>
    obtain ⟨k', e'⟩ := kv
    by_cases h : k' = k
    · simp [Cache.write, Cache.find, h]
    · simp [Cache.write, Cache.find, h, ih]

/-! ## Claims -/

/-- C1: for every sequence of enqueue calls whose length does not exceed
`maxBatchSize` (here nonempty; an empty sequence trivially produces no
batch), the enqueues all succeed, and a subsequent `flush` with a Transport
that always succeeds delivers exactly the enqueued events, in enqueue
order, in a single batch with no failures. -/
theorem claim_C1 {α : Type} (max : Nat) (evs : List α)
    (hlen : evs.length ≤ max) (hne : evs ≠ []) :
    ∃ q', enqueueAll (emptyQueue α max) evs = Except.ok q' ∧
      q'.buffer = evs ∧
      (flush (fun _ => true) q').sent = [evs] ∧
      (flush (fun _ => true) q').failed = [] := by
  obtain ⟨q', h1, h2, h3, _⟩ :=
    enqueueAll_ok evs (emptyQueue α max) (by simp [emptyQueue])
  have hbuf : q'.buffer = evs := by simpa [emptyQueue] using h2
  have hmx : q'.maxBatchSize = max := by simpa [emptyQueue] using h3
  refine ⟨q', h1, hbuf, ?_, ?_⟩
  · simp [flush, hbuf, hmx, toBatches_single max evs hne hlen, sendBatches_true]
  · simp [flush, hbuf, hmx, toBatches_single max evs hne hlen, sendBatches_true]

/-- Witness for C1: three events enqueued under a batch size of five are
flushed as the single batch `[10, 20, 30]`. -/
theorem claim_C1_witness :
    ∃ q', enqueueAll (emptyQueue Nat 5) [10, 20, 30] = Except.ok q' ∧
      q'.buffer = [10, 20, 30] ∧
      (flush (fun _ => true) q').sent = [[10, 20, 30]] ∧
      (flush (fun _ => true) q').failed = [] :=
  claim_C1 5 [10, 20, 30] (by decide) (by decide)

/-- C3: `enqueue` fails exactly when the queue is `ShuttingDown`, and then
with `QueueClosed`; in every other state it succeeds, appending the event
to the buffer; and the call performs no transport send at all (it never
blocks the caller on network I/O). -/
theorem claim_C3 {α : Type} (q : Queue α) (e : α) :
    (∀ err, (enqueue q e).result = Except.error err ↔
      (q.mode = QMode.ShuttingDown ∧ err = DispatchError.QueueClosed)) ∧
    (q.mode ≠ QMode.ShuttingDown →
      ∃ q', (enqueue q e).result = Except.ok q' ∧
        q'.buffer = q.buffer ++ [e]) ∧
    (enqueue q e).sends = [] := by
  rcases q with ⟨buf, mode, mx, so⟩
  cases mode <;> simp [enqueue]
  exact fun err => eq_comm

/-- Witness for C3: enqueueing on an idle queue succeeds and appends. -/
theorem claim_C3_witness :
    ∃ q', (enqueue (⟨[5], QMode.Idle, 10, none⟩ : Queue Nat) 7).result =
        Except.ok q' ∧ q'.buffer = [5] ++ [7] :=
  (claim_C3 ⟨[5], QMode.Idle, 10, none⟩ 7).2.1 (by decide)

/-- C8: the top-level client's `flush` and `shutdown` return exactly the
score manager's `flush` and `shutdown` results; in particular, with the
score manager instantiated by the Dispatch Queue pipeline, the client
surfaces that pipeline unchanged. -/
theorem claim_C8 {σ ρ α : Type} (c : ElasticDashClient σ ρ) (s : σ)
    (tr : List α → Bool) (q : Queue α) :
    c.flush s = c.score.flush s ∧
    c.shutdown s = c.score.shutdown s ∧
    (ElasticDashClient.mk (scoreManagerOfQueue tr)).flush q =
      (((flush tr q).sent, (flush tr q).failed), (flush tr q).queue) ∧
    (ElasticDashClient.mk (scoreManagerOfQueue tr)).shutdown q =
      ((shutdown tr q).outcome, (shutdown tr q).queue) :=
  ⟨rfl, rfl, rfl, rfl⟩

/-- C9: after setting a non-null isolated provider the getter returns it;
with the slot cleared (`null`) or never set, the getter falls back to the
global OpenTelemetry provider. -/
theorem claim_C9 {P : Type} (g : P) (s : ElasticDashGlobalState P) (p : P) :
    getElasticDashTracerProvider g (setElasticDashTracerProvider s (some p)) = p ∧
    getElasticDashTracerProvider g (setElasticDashTracerProvider s none) = g ∧
    getElasticDashTracerProvider g (createState P) = g :=
  ⟨rfl, rfl, rfl⟩

/-- A resolve-start step by a caller that finds the key's fetch already
in flight (and no fresh entry) joins it: the state is unchanged. -/
theorem resolveStart_of_inflight {K V : Type} [DecidableEq K] (now : Nat)
    (s : CoCache K V) (k : K) (hmem : k ∈ s.inflight)
    (hnf : ∀ e, s.entries.find k = some e → e.freshAt now = false) :
    resolveStart now s k = s := by
  unfold resolveStart
  cases hf : s.entries.find k with
  | none => simp [hmem]
  | some e => simp [hnf e hf, hmem]

/-- Iterating a step that fixes the state keeps it fixed. -/
theorem resolveStartN_fixed {K V : Type} [DecidableEq K] (now : Nat)
    (s : CoCache K V) (k : K) (h : resolveStart now s k = s) :
    ∀ n, resolveStartN now s k n = s := by
  intro n
  induction n with
  | zero => rfl
  | succ m ih => simp [resolveStartN, h, ih]

/-- C2: for every `N ≥ 1`, when `N` concurrent `resolve` calls are issued
for the same missing or stale key before the fetch completes, the Fetcher
is invoked exactly once — the first caller installs the in-flight handle
and every later caller joins it. -/
theorem claim_C2 {K V : Type} [DecidableEq K] (now : Nat) (s : CoCache K V)
    (k : K)
    (hnf : ∀ e, s.entries.find k = some e → e.freshAt now = false)
    (hnin : k ∉ s.inflight) (N : Nat) (hN : 1 ≤ N) :
    (resolveStartN now s k N).fetchCount = s.fetchCount + 1 := by
  obtain ⟨m, rfl⟩ : ∃ m, N = m + 1 := ⟨N - 1, by omega⟩
  have hstep : resolveStart now s k =
      { s with inflight := k :: s.inflight, fetchCount := s.fetchCount + 1 } := by
    unfold resolveStart
    cases hf : s.entries.find k with
    | none => simp [hnin]
    | some e => simp [hnf e hf, hnin]
  have hfix : resolveStart now (resolveStart now s k) k = resolveStart now s k := by
    rw [hstep]
    exact resolveStart_of_inflight now _ k (List.mem_cons_self k s.inflight)
      (fun e he => hnf e he)
  show (resolveStartN now (resolveStart now s k) k m).fetchCount = s.fetchCount + 1
  rw [resolveStartN_fixed now _ k hfix m, hstep]

/-- Witness for C2: three concurrent resolves of a missing key on an empty
cache invoke the Fetcher once. -/
theorem claim_C2_witness :
    (resolveStartN (K := Nat) (V := Nat) 0 ⟨[], [], 0⟩ 0 3).fetchCount = 0 + 1 :=
  claim_C2 0 ⟨[], [], 0⟩ 0 (fun e he => by simp [Cache.find] at he)
    (by simp) 3 (by decide)

/-- C4: a stale entry whose triggered refresh fails is still returned by
`resolve` (no error), one refresh fetch is attempted, and the stale entry
is retained in the cache with its TTL window extended by the grace
period. -/
theorem claim_C4 {K V : Type} [DecidableEq K] (fetch : K → Except FetchError V)
    (ttl grace now : Nat) (fb : Option V) (c : Cache K V) (k : K)
    (e : CacheEntry V) (err : FetchError)
    (hfind : c.find k = some e) (hstale : e.freshAt now = false)
    (hfetch : fetch k = Except.error err) :
    (resolve fetch ttl grace now fb c k).result = Except.ok e.value ∧
    (resolve fetch ttl grace now fb c k).fetchCalls = 1 ∧
    (resolve fetch ttl grace now fb c k).cache.find k =
      some ⟨e.value, e.fetchTs, e.ttl + grace⟩ := by
  simp [resolve, hfind, hstale, hfetch, Cache.find_write_self]

/-- Witness for C4: a stale entry (fetched at 0 with TTL 1, read at 5)
whose refresh fails is returned and retained with TTL 1 + 4. -/
theorem claim_C4_witness :
    (resolve (fun _ : Nat => (Except.error FetchError.Unavailable : Except FetchError Nat))
        10 4 5 none [(0, ⟨9, 0, 1⟩)] 0).result = Except.ok 9 ∧
    (resolve (fun _ : Nat => (Except.error FetchError.Unavailable : Except FetchError Nat))
        10 4 5 none [(0, ⟨9, 0, 1⟩)] 0).fetchCalls = 1 ∧
    (resolve (fun _ : Nat => (Except.error FetchError.Unavailable : Except FetchError Nat))
        10 4 5 none [(0, ⟨9, 0, 1⟩)] 0).cache.find 0 = some ⟨9, 0, 1 + 4⟩ :=
  claim_C4 _ 10 4 5 none _ 0 ⟨9, 0, 1⟩ FetchError.Unavailable rfl rfl rfl

/-- C5: a `resolve` at `t0` on a missing key populates the cache with one
blocking fetch, and every `resolve` at any `t < t0 + T` returns the same
value from the cache with zero further Fetcher invocations and an unchanged
cache. -/
theorem claim_C5 {K V : Type} [DecidableEq K] (fetch : K → Except FetchError V)
    (T grace t0 : Nat) (c0 : Cache K V) (k : K) (v : V)
    (hmiss : c0.find k = none) (hfetch : fetch k = Except.ok v) :
    (resolve fetch T grace t0 none c0 k).result = Except.ok v ∧
    (resolve fetch T grace t0 none c0 k).fetchCalls = 1 ∧
    ∀ t, t < t0 + T →
      resolve fetch T grace t none (resolve fetch T grace t0 none c0 k).cache k =
        ⟨Except.ok v, (resolve fetch T grace t0 none c0 k).cache, 0⟩ := by
  have h0 : resolve fetch T grace t0 none c0 k =
      ⟨Except.ok v, c0.write k ⟨v, t0, T⟩, 1⟩ := by
    simp [resolve, hmiss, hfetch]
  refine ⟨by rw [h0], by rw [h0], ?_⟩
  intro t ht
  rw [h0]
  have hf : (c0.write k ⟨v, t0, T⟩).find k = some ⟨v, t0, T⟩ :=
    Cache.find_write_self c0 k ⟨v, t0, T⟩
  have hfresh : (⟨v, t0, T⟩ : CacheEntry V).freshAt t = true := by
    simp only [CacheEntry.freshAt, decide_eq_true_eq]
    exact ht
  simp [resolve, hf, hfresh]

/-- Witness for C5: populating at time 3 with TTL 10 and re-resolving at
time 7 returns the cached 5 with no fetch. -/
theorem claim_C5_witness :
    (resolve (fun _ : Nat => (Except.ok 5 : Except FetchError Nat))
        10 0 3 none [] 0).result = Except.ok 5 ∧
    (resolve (fun _ : Nat => (Except.ok 5 : Except FetchError Nat))
        10 0 3 none [] 0).fetchCalls = 1 ∧
    resolve (fun _ : Nat => (Except.ok 5 : Except FetchError Nat)) 10 0 7 none
        (resolve (fun _ : Nat => (Except.ok 5 : Except FetchError Nat))
          10 0 3 none [] 0).cache 0 =
      ⟨Except.ok 5,
        (resolve (fun _ : Nat => (Except.ok 5 : Except FetchError Nat))
          10 0 3 none [] 0).cache, 0⟩ := by
  have h := claim_C5 (fun _ : Nat => (Except.ok 5 : Except FetchError Nat))
    10 0 3 ([] : Cache Nat Nat) 0 5 rfl rfl
  exact ⟨h.1, h.2.1, h.2.2 7 (by decide)⟩

/-- C6: `shutdown` is idempotent — the second call leaves the queue
unchanged, attempts no batch, and resolves with the same outcome as the
first call; and the first call attempts every pending event exactly once
(its attempted batches concatenate to the pending buffer). -/
theorem claim_C6 {α : Type} (tr : List α → Bool) (q : Queue α)
    (hfirst : q.shutdownOutcome = none) :
    (shutdown tr (shutdown tr q).queue).outcome = (shutdown tr q).outcome ∧
    (shutdown tr (shutdown tr q).queue).queue = (shutdown tr q).queue ∧
    (shutdown tr (shutdown tr q).queue).attempted = [] ∧
    ((shutdown tr q).attempted).flatten = q.buffer := by
  refine ⟨?_, ?_, ?_, ?_⟩ <;>
    simp [shutdown, hfirst, toBatches, toBatchesAux_flatten]

/-- Witness for C6: a queue holding three events shut down twice — the
second call changes nothing and the first attempted exactly the buffer. -/
theorem claim_C6_witness :
    (shutdown (fun _ => true)
        (shutdown (fun _ => true) (⟨[1, 2, 3], QMode.Accumulating, 2, none⟩ : Queue Nat)).queue).outcome =
      (shutdown (fun _ => true) (⟨[1, 2, 3], QMode.Accumulating, 2, none⟩ : Queue Nat)).outcome ∧
    (shutdown (fun _ => true)
        (shutdown (fun _ => true) (⟨[1, 2, 3], QMode.Accumulating, 2, none⟩ : Queue Nat)).queue).queue =
      (shutdown (fun _ => true) (⟨[1, 2, 3], QMode.Accumulating, 2, none⟩ : Queue Nat)).queue ∧
    (shutdown (fun _ => true)
        (shutdown (fun _ => true) (⟨[1, 2, 3], QMode.Accumulating, 2, none⟩ : Queue Nat)).queue).attempted = [] ∧
    ((shutdown (fun _ => true) (⟨[1, 2, 3], QMode.Accumulating, 2, none⟩ : Queue Nat)).attempted).flatten = [1, 2, 3] :=
  claim_C6 (fun _ => true) ⟨[1, 2, 3], QMode.Accumulating, 2, none⟩ rfl

/-- Every delivery makes at most one attempt more than its retry fuel. -/
theorem deliverAux_attempts_le (tr : Nat → SendResult) (base : Nat) :
    ∀ (fuel attempt : Nat),
      (deliverAux tr base attempt fuel).attempts ≤ attempt + fuel + 1 := by
  intro fuel
  induction fuel with
  | zero =>
    intro attempt
    cases h : tr attempt <;> simp [deliverAux, h]
  | succ n ih =>
    intro attempt
    cases h : tr attempt with
    | Ack => simp [deliverAux, h]
    | Permanent => simp [deliverAux, h]
    | Transient =>
      simp only [deliverAux, h]
      have := ih (attempt + 1)
      omega

/-- C7: delivery retries transient failures with exponential backoff and is
bounded by `maxRetries` attempts; a permanent failure is never retried; and
in the spec's scenario — transient twice then success with `maxRetries = 3`
— the batch is delivered on the third attempt with backoff delays `base`
and `base * 2` observed between the attempts. -/
theorem claim_C7 (maxRetries base : Nat) (tr : Nat → SendResult) :
    deliver (fun _ => SendResult.Permanent) maxRetries base =
      ⟨false, 1, []⟩ ∧
    (deliver tr maxRetries base).attempts ≤ max maxRetries 1 ∧
    deliver scenarioTransport 3 base = ⟨true, 3, [base, base * 2]⟩ := by
  refine ⟨?_, ?_, ?_⟩
  · cases h : maxRetries - 1 <;> simp [deliver, deliverAux, h]
  · have h := deliverAux_attempts_le tr base (maxRetries - 1) 0
    simp only [deliver]
    omega
  · simp [deliver, deliverAux, scenarioTransport]

/-- The null-filter keeps only entries whose value is present. -/
theorem all_isSome_filter (l : List (AttrKey × Option AttrValue)) :
    ((l.filter fun kv => kv.2.isSome).all fun kv => kv.2.isSome) = true := by
  rw [List.all_eq_true]
  intro kv h
  simpa using List.of_mem_filter h

/-- A truthiness-guarded entry carries exactly the key it was built with. -/
theorem entryIfTruthy_key (k : AttrKey) (s : Option String)
    (x : AttrKey × Option AttrValue) (h : entryIfTruthy k s = some x) :
    x.1 = k := by
  cases s with
  | none => simp [entryIfTruthy] at h
  | some sv =>
    by_cases hsv : sv = ""
    · simp [entryIfTruthy, hsv] at h
    · simp [entryIfTruthy, hsv] at h
      rw [← h]

/-- Every entry produced by metadata flattening carries a metadata key
(the key constructor `mk` applied to some field selector). -/
theorem flattenAndSerializeMetadata_key (mk : Option String → AttrKey)
    (md : Option JsValue) (x : AttrKey × Option AttrValue)
    (hx : x ∈ flattenAndSerializeMetadata mk md) : ∃ f, x.1 = mk f := by
  match md with
  | none => simp [flattenAndSerializeMetadata] at hx
  | some .jsNull => simp [flattenAndSerializeMetadata] at hx
  | some (.obj fields) =>
    simp only [flattenAndSerializeMetadata] at hx
    rw [List.mem_filterMap] at hx
    obtain ⟨kv, _, hkv⟩ := hx
    exact ⟨some kv.1, entryIfTruthy_key _ _ _ hkv⟩
  | some (.str s) =>
    simp only [flattenAndSerializeMetadata, Option.mem_toList,
      Option.mem_def] at hx
    exact ⟨none, entryIfTruthy_key _ _ _ hx⟩
  | some (.num n) =>
    simp only [flattenAndSerializeMetadata, Option.mem_toList,
      Option.mem_def] at hx
    exact ⟨none, entryIfTruthy_key _ _ _ hx⟩
  | some (.bool b) =>
    simp only [flattenAndSerializeMetadata, Option.mem_toList,
      Option.mem_def] at hx
    exact ⟨none, entryIfTruthy_key _ _ _ hx⟩
  | some (.arr xs) =>
    simp only [flattenAndSerializeMetadata, Option.mem_toList,
      Option.mem_def] at hx
    exact ⟨none, entryIfTruthy_key _ _ _ hx⟩

/-- C10: the attribute maps returned by `createTraceAttributes` and
`createObservationAttributes` contain no null or undefined values (every
entry surviving the filter holds a present value), and when the supplied
prompt is a fallback the prompt name and version attributes are omitted
entirely. -/
theorem claim_C10 :
    (∀ a, ((createTraceAttributes a).all fun kv => kv.2.isSome) = true) ∧
    (∀ tp a, ((createObservationAttributes tp a).all fun kv => kv.2.isSome) = true) ∧
    (∀ tp (a : ElasticDashObservationAttributes) (p : ElasticDashPromptRef),
      a.prompt = some p → p.isFallback = true →
      ((createObservationAttributes tp a).all fun kv =>
        decide (kv.1 ≠ AttrKey.observationPromptName ∧
          kv.1 ≠ AttrKey.observationPromptVersion)) = true) := by
  refine ⟨fun a => all_isSome_filter _, fun tp a => all_isSome_filter _,
    fun tp a p hp hfb => ?_⟩
  rw [List.all_eq_true]
  intro kv hkv
  simp only [createObservationAttributes, hp, hfb, if_true, List.append_nil] at hkv
  rcases List.mem_append.mp (List.mem_of_mem_filter hkv) with h | h
  · simp only [List.mem_cons, List.not_mem_nil, or_false] at h
    rcases h with rfl | redal | rfl | rfl | rfl | rfl | rfl | rfl | rfl | rfl | rfl
    all_goals first
      | rfl
      | (rcases redal with rfl; rfl)
  · obtain ⟨f, hf⟩ := flattenAndSerializeMetadata_key _ _ _ h
    rw [decide_eq_true_eq, hf]
    exact ⟨by simp, by simp⟩

/-- Witness for C10: a fallback prompt contributes neither the prompt-name
nor the prompt-version attribute. -/
theorem claim_C10_witness :
    ((createObservationAttributes "generation"
        { prompt := some ⟨"p", 1, true⟩ }).all fun kv =>
      decide (kv.1 ≠ AttrKey.observationPromptName ∧
        kv.1 ≠ AttrKey.observationPromptVersion)) = true :=
  claim_C10.2.2 "generation" { prompt := some ⟨"p", 1, true⟩ } ⟨"p", 1, true⟩
    rfl rfl

end ElasticDash
